import Mathlib

/-!
Verification of the wfc3-psf toolkit against its specification.

This file gives a shallow embedding, in Lean 4, of the numerical core of the
wfc3-psf repository and proves (or refutes) the frozen behavioural claims
about it.  The embedded modules are:

* `wfc3_psf/focus_model.py`    — `FocusModel` (metric extraction, Gaussian
  focus-curve fitting, prediction);
* `wfc3_psf/stability_analyzer.py` — `StabilityAnalyzer` (`compute_drift`,
  `rolling_rms`);
* `wfc3_psf/anomaly_detector.py`   — `AnomalyDetector` (`detect_anomalies`,
  `anomaly_indices`);
* `wfc3_psf/models.py`         — `create_psf_model`, `generate_sample_psf`.

Floating-point values are embedded as exact real (or rational) numbers;
Python integers as `Nat`/`Int` with Python floor division embedded as
`Int.fdiv`.  Code that raises an exception is embedded with `Except`.
The external SciPy solver `least_squares` is not part of the repository:
its result is taken as a parameter (`LSResult`), so every theorem below
quantifies over all possible solver outcomes.
-/

namespace WFC3

/-! ## Focus model (`wfc3_psf/focus_model.py`) -/

/-- Total flux of an `h × w` raster: `image.sum()`. -/
noncomputable def totalFlux (h w : ℕ) (img : ℕ → ℕ → ℝ) : ℝ :=
  ∑ i ∈ Finset.range h, ∑ j ∈ Finset.range w, img i j

/-- Flux-weighted x centroid `xcen = (xs * image).sum() / total`
(`np.indices` gives `xs[i][j] = j`). -/
noncomputable def xcen (h w : ℕ) (img : ℕ → ℕ → ℝ) : ℝ :=
  (∑ i ∈ Finset.range h, ∑ j ∈ Finset.range w, (j : ℝ) * img i j) / totalFlux h w img

/-- Flux-weighted y centroid `ycen = (ys * image).sum() / total`
(`np.indices` gives `ys[i][j] = i`). -/
noncomputable def ycen (h w : ℕ) (img : ℕ → ℕ → ℝ) : ℝ :=
  (∑ i ∈ Finset.range h, ∑ j ∈ Finset.range w, (i : ℝ) * img i j) / totalFlux h w img

/-- Second central moment along x:
`dx2 = ((xs - xcen) ** 2 * image).sum() / total`. -/
noncomputable def dx2 (h w : ℕ) (img : ℕ → ℕ → ℝ) : ℝ :=
  (∑ i ∈ Finset.range h, ∑ j ∈ Finset.range w, ((j : ℝ) - xcen h w img) ^ 2 * img i j) /
    totalFlux h w img

/-- Second central moment along y:
`dy2 = ((ys - ycen) ** 2 * image).sum() / total`. -/
noncomputable def dy2 (h w : ℕ) (img : ℕ → ℕ → ℝ) : ℝ :=
  (∑ i ∈ Finset.range h, ∑ j ∈ Finset.range w, ((i : ℝ) - ycen h w img) ^ 2 * img i j) /
    totalFlux h w img

/-- `FocusModel.metric_from_image`: if the summed flux is `<= 0` the function
returns `0.0` before any division; otherwise it returns
`sqrt(dx2 + dy2)` for the flux-weighted second central moments. -/
noncomputable def metric_from_image (h w : ℕ) (img : ℕ → ℕ → ℝ) : ℝ :=
  if totalFlux h w img ≤ 0 then 0
  else Real.sqrt (dx2 h w img + dy2 h w img)

/-- `FocusModel.gaussian_model`: `a * exp(-0.5*((f-f0)/sigma)^2) + c`. -/
noncomputable def gaussian_model (f a f0 sigma c : ℝ) : ℝ :=
  a * Real.exp (-(1/2) * ((f - f0) / sigma) ^ 2) + c

/-- Result of the external SciPy `least_squares` call: the four solution
components `x[0] .. x[3]`, the final cost and the convergence flag.  The
solver lives outside the repository, so its outcome is a parameter of the
embedding. -/
structure LSResult where
  x0 : ℝ
  x1 : ℝ
  x2 : ℝ
  x3 : ℝ
  cost : ℝ
  success : Bool

/-- The parameter dictionary stored by `fit_focus_metrics`:
`{a, f0, sigma, c, cost, success}`. -/
structure FitParams where
  a : ℝ
  f0 : ℝ
  sigma : ℝ
  c : ℝ
  cost : ℝ
  success : Bool

/-- The mutable state of a `FocusModel` instance: the `fitted` flag and the
`params` dictionary (`none` embeds the initial empty dict `{}`). -/
structure FocusModel where
  fitted : Bool
  params : Option FitParams

/-- `FocusModel.__init__`: `fitted = False`, `params = {}`. -/
def FocusModel.init : FocusModel :=
  ⟨false, none⟩

/-- `FocusModel.fit_focus_metrics`: runs the external solver on the residuals
of `gaussian_model` against `metrics` (outcome `res`), then stores
`{a = res.x[0], f0 = res.x[1], sigma = |res.x[2]|, c = res.x[3],
cost = res.cost, success = res.success}` and sets `fitted = True`.
`times` and `metrics` only feed the solver, whose outcome is `res`. -/
noncomputable def fit_focus_metrics (_m : FocusModel) (_times _metrics : List ℝ)
    (res : LSResult) : FocusModel :=
  ⟨true, some ⟨res.x0, res.x1, |res.x2|, res.x3, res.cost, res.success⟩⟩

/-- `FocusModel.predict_metric`: raises `RuntimeError` when `fitted` is
false; otherwise evaluates `gaussian_model` at the stored parameters.  A
`fitted` state with an empty dict would raise `KeyError` in Python; it is
unreachable. -/
noncomputable def predict_metric (m : FocusModel) (times : List ℝ) :
    Except String (List ℝ) :=
  if m.fitted = false then .error "RuntimeError: FocusModel is not fitted yet."
  else
    match m.params with
    | some p => .ok (times.map (fun t => gaussian_model t p.a p.f0 p.sigma p.c))
    | none => .error "KeyError"

/-- States of a `FocusModel` instance reachable from `__init__` by any
sequence of `fit_focus_metrics` calls. -/
inductive Reachable : FocusModel → Prop
  | init : Reachable FocusModel.init
  | fit (m : FocusModel) (t y : List ℝ) (r : LSResult) :
      Reachable m → Reachable (fit_focus_metrics m t y r)

/-- Claim C1: on a fresh `FocusModel`, `predict_metric` fails with the
state-precondition error; after any `fit_focus_metrics` call — whatever the
solver outcome, converged or not — `predict_metric` succeeds and returns a
list whose length equals the length of its input `times`. -/
theorem predict_metric_state_contract :
    (∀ ts : List ℝ,
        predict_metric FocusModel.init ts =
          .error "RuntimeError: FocusModel is not fitted yet.") ∧
    (∀ (m : FocusModel) (t y : List ℝ) (r : LSResult) (ts : List ℝ),
        ∃ out : List ℝ,
          predict_metric (fit_focus_metrics m t y r) ts = .ok out ∧
            out.length = ts.length) := by
  constructor
  · intro ts
    simp [predict_metric, FocusModel.init]
  · intro m t y r ts
    exact ⟨_, rfl, List.length_map _ _⟩

/-- Claim C7: for a non-negative raster, zero (or non-positive) total flux
makes `metric_from_image` return exactly `0.0`; with positive total flux it
returns `sqrt(dx2 + dy2)`, the root of the sum of the flux-weighted second
central moments. -/
theorem metric_from_image_spec (h w : ℕ) (img : ℕ → ℕ → ℝ)
    (hpos : ∀ i j, 0 ≤ img i j) :
    (totalFlux h w img ≤ 0 → metric_from_image h w img = 0) ∧
    (0 < totalFlux h w img →
      metric_from_image h w img = Real.sqrt (dx2 h w img + dy2 h w img)) := by
  constructor
  · intro ht
    simp [metric_from_image, ht]
  · intro ht
    simp [metric_from_image, not_le.mpr ht]

/-- Witness for C7 at the concrete all-zero `1 × 1` raster. -/
theorem metric_from_image_spec_witness :
    (totalFlux 1 1 (fun _ _ => (0 : ℝ)) ≤ 0 →
      metric_from_image 1 1 (fun _ _ => (0 : ℝ)) = 0) ∧
    (0 < totalFlux 1 1 (fun _ _ => (0 : ℝ)) →
      metric_from_image 1 1 (fun _ _ => (0 : ℝ)) =
        Real.sqrt (dx2 1 1 (fun _ _ => (0 : ℝ)) + dy2 1 1 (fun _ _ => (0 : ℝ)))) :=
  metric_from_image_spec 1 1 (fun _ _ => (0 : ℝ)) (fun _ _ => le_refl 0)

/-- Claim C8: every reachable fitted `FocusModel` state stores a
non-negative `sigma` — `fit_focus_metrics` stores `abs(res.x[2])`, so the
invariant holds even when the solver returns a negative width. -/
theorem fitted_sigma_nonneg (m : FocusModel) (hm : Reachable m)
    (hf : m.fitted = true) :
    ∃ p, m.params = some p ∧ 0 ≤ p.sigma := by
  induction hm with
  | init => simp [FocusModel.init] at hf
  | fit m t y r _ _ => exact ⟨_, rfl, abs_nonneg _⟩

/-- Witness for C8: a concrete fit whose solver outcome has a negative
third component and `success = false` still stores a non-negative sigma. -/
theorem fitted_sigma_nonneg_witness :
    ∃ p, (fit_focus_metrics FocusModel.init [] [] ⟨1, 0, -3, 0, 0, false⟩).params =
        some p ∧ 0 ≤ p.sigma :=
  fitted_sigma_nonneg _ (Reachable.fit _ _ _ _ Reachable.init) rfl

/-! ## Stability analyzer (`wfc3_psf/stability_analyzer.py`) -/

/-- The second component of `compute_drift`'s return value.  Because of the
precedence of the Python conditional expression in
`return 0.0, float(y[0]) if t.size == 1 else (0.0, 0.0)`, that slot holds a
float on every path except the zero-point one, where it holds the nested
tuple `(0.0, 0.0)`. -/
inductive DriftSecond where
  | num (b : ℝ)
  | pair (p : ℝ × ℝ)

/-- `np.linalg.lstsq` on the design matrix `[t, 1]`: the least-squares line
through the points, and the minimum-norm solution when the normal-equation
determinant vanishes (all times equal). -/
noncomputable def lstsq_line (t y : List ℝ) : ℝ × ℝ :=
  let n : ℝ := t.length
  let st := t.sum
  let sy := y.sum
  let stt := (t.map (fun v => v ^ 2)).sum
  let sty := (List.zipWith (fun a b => a * b) t y).sum
  let d := n * stt - st ^ 2
  if d ≠ 0 then ((n * sty - st * sy) / d, (stt * sy - st * sty) / d)
  else
    let t0 := t.headI
    let ybar := sy / n
    (ybar * t0 / (t0 ^ 2 + 1), ybar / (t0 ^ 2 + 1))

/-- `StabilityAnalyzer.compute_drift`.  With fewer than two points the
code executes `return 0.0, float(y[0]) if t.size == 1 else (0.0, 0.0)`:
the conditional expression binds to the second tuple slot only, so one
point yields `(0.0, y[0])` while zero points yield `(0.0, (0.0, 0.0))`.
Otherwise the slope and intercept come from `np.linalg.lstsq`.  (With one
time but an empty `y`, Python would raise IndexError on `y[0]`; `headI`
stands in for that unreachable mismatched-length case.) -/
noncomputable def compute_drift (t y : List ℝ) : ℝ × DriftSecond :=
  if t.length < 2 then
    (0, if t.length = 1 then DriftSecond.num y.headI else DriftSecond.pair (0, 0))
  else
    ((lstsq_line t y).1, DriftSecond.num (lstsq_line t y).2)

/-- Claim C2 (code bug): on zero points `compute_drift` returns
`(0.0, (0.0, 0.0))` — the intercept slot holds a nested tuple, not the
documented float `0.0` — while on one point it returns `(0.0, v)` as the
spec states. -/
theorem compute_drift_edge_cases :
    compute_drift ([] : List ℝ) [] = (0, DriftSecond.pair (0, 0)) ∧
    (∀ b : ℝ, DriftSecond.pair (0, 0) ≠ DriftSecond.num b) ∧
    (∀ tv v : ℝ, compute_drift [tv] [v] = (0, DriftSecond.num v)) := by
  refine ⟨?_, ?_, ?_⟩
  · simp [compute_drift]
  · intro b h
    exact DriftSecond.noConfusion h
  · intro tv v
    simp [compute_drift]

/-- The detrended residuals `resid = y - (m * t + b)` used by
`rolling_rms` (empty when `compute_drift` hits its nested-tuple path). -/
noncomputable def detrended_residuals (t y : List ℝ) : List ℝ :=
  match compute_drift t y with
  | (m, DriftSecond.num b) => List.zipWith (fun yi ti => yi - (m * ti + b)) y t
  | (_, DriftSecond.pair _) => []

/-- One entry of the windowed rolling-RMS loop: slice the residuals to the
boundary-clamped window `[max(0, i-half), min(n, i+half+1))` and, when the
slice is non-empty, take `sqrt(mean(seg ** 2))`; a NaN placeholder
(`none`) remains otherwise. -/
noncomputable def rms_entry (resid : List ℝ) (half i : ℕ) : Option ℝ :=
  let lo := i - half
  let hi := min resid.length (i + half + 1)
  let seg := (resid.drop lo).take (hi - lo)
  if 0 < seg.length then
    some (Real.sqrt ((seg.map (fun r => r ^ 2)).sum / seg.length))
  else none

/-- `StabilityAnalyzer.rolling_rms`.  Empty input returns an empty array.
Otherwise the metrics are detrended with `compute_drift`; `window <= 1`
returns `np.sqrt(resid ** 2)` pointwise, and larger windows fill an
all-NaN array (`none` entries) through `rms_entry` with radius
`half = window // 2`.  The nested-tuple branch of `compute_drift` (empty
`t`, non-empty `y`) would make `y - (m * t + b)` raise a broadcast
ValueError. -/
noncomputable def rolling_rms (t y : List ℝ) (window : ℤ) :
    Except String (List (Option ℝ)) :=
  if y.length = 0 then .ok []
  else
    match compute_drift t y with
    | (_, DriftSecond.pair _) =>
        .error "ValueError: operands could not be broadcast together"
    | (m, DriftSecond.num b) =>
        let resid := List.zipWith (fun yi ti => yi - (m * ti + b)) y t
        if window ≤ 1 then .ok (resid.map (fun r => some (Real.sqrt (r ^ 2))))
        else .ok ((List.range resid.length).map (rms_entry resid (window.toNat / 2)))

/-- With a non-empty `t`, `compute_drift` always produces a float pair. -/
theorem compute_drift_num_of_ne_nil (t y : List ℝ) (ht : t ≠ []) :
    ∃ m b, compute_drift t y = (m, DriftSecond.num b) := by
  have hlen : 0 < t.length := List.length_pos.mpr ht
  by_cases h2 : t.length < 2
  · have h1 : t.length = 1 := by omega
    exact ⟨0, y.headI, by simp [compute_drift, h2, h1]⟩
  · refine ⟨(lstsq_line t y).1, (lstsq_line t y).2, ?_⟩
    simp [compute_drift, h2]

/-- Claim C6: for equal-length inputs `rolling_rms` succeeds and returns an
array of the same length as the input (empty for empty input); with
`window <= 1` it is exactly the elementwise absolute value of the
detrended residuals; with `window > 1` no entry is left missing (NaN),
because every boundary-clamped window contains at least one sample. -/
theorem rolling_rms_spec (t y : List ℝ) (w : ℤ) (hlen : t.length = y.length) :
    ∃ out : List (Option ℝ),
      rolling_rms t y w = .ok out ∧
      out.length = y.length ∧
      (w ≤ 1 → out = (detrended_residuals t y).map (fun r => some |r|)) ∧
      (1 < w → ∀ i < y.length, (out.getD i none).isSome = true) := by
  by_cases hy : y.length = 0
  · refine ⟨[], by simp [rolling_rms, hy], by simp [hy], ?_, ?_⟩
    · intro _
      have ht : t.length = 0 := by omega
      have ht' : t = [] := List.length_eq_zero.mp ht
      have hy' : y = [] := List.length_eq_zero.mp hy
      simp [detrended_residuals, ht', hy', compute_drift]
    · intro _ i hi
      omega
  · have ht : t ≠ [] := by
      intro h
      rw [h] at hlen
      simp at hlen
      omega
    obtain ⟨m, b, hcd⟩ := compute_drift_num_of_ne_nil t y ht
    have hres : detrended_residuals t y =
        List.zipWith (fun yi ti => yi - (m * ti + b)) y t := by
      unfold detrended_residuals
      rw [hcd]
    have hreslen : (List.zipWith (fun yi ti => yi - (m * ti + b)) y t).length =
        y.length := by
      rw [List.length_zipWith]
      omega
    by_cases hw : w ≤ 1
    · refine ⟨(List.zipWith (fun yi ti => yi - (m * ti + b)) y t).map
          (fun r => some (Real.sqrt (r ^ 2))), ?_, ?_, ?_, ?_⟩
      · simp only [rolling_rms, hcd]
        rw [if_neg hy, if_pos hw]
      · simpa using hreslen
      · intro _
        rw [hres]
        apply List.map_congr_left
        intro r _
        simp [Real.sqrt_sq_eq_abs]
      · intro hw' _hi
        omega
    · refine ⟨(List.range (List.zipWith (fun yi ti => yi - (m * ti + b)) y t).length).map
          (rms_entry (List.zipWith (fun yi ti => yi - (m * ti + b)) y t) (w.toNat / 2)),
          ?_, ?_, ?_, ?_⟩
      · simp only [rolling_rms, hcd]
        rw [if_neg hy, if_neg hw]
      · simpa using hreslen
      · intro hw'
        omega
      · intro _ i hi
        set resid := List.zipWith (fun yi ti => yi - (m * ti + b)) y t with hresid
        have hi' : i < resid.length := by omega
        set half := w.toNat / 2 with hhalf
        have hget : ((List.range resid.length).map (rms_entry resid half)).getD i none =
            rms_entry resid half i := by
          rw [List.getD_eq_getD_get?, List.get?_map, List.get?_range hi']
          rfl
        rw [hget]
        unfold rms_entry
        have hseglen : 0 < ((resid.drop (i - half)).take
            (min resid.length (i + half + 1) - (i - half))).length := by
          rw [List.length_take, List.length_drop]
          have h1 : i - half ≤ i := Nat.sub_le i half
          omega
        simp only
        rw [if_pos hseglen]
        rfl

/-- Witness for C6 at the concrete input `t = [0]`, `y = [1]`, window 5. -/
theorem rolling_rms_spec_witness :
    ∃ out : List (Option ℝ),
      rolling_rms [0] [(1 : ℝ)] 5 = .ok out ∧
      out.length = [(1 : ℝ)].length ∧
      ((5 : ℤ) ≤ 1 → out = (detrended_residuals [0] [(1 : ℝ)]).map (fun r => some |r|)) ∧
      ((1 : ℤ) < 5 → ∀ i < [(1 : ℝ)].length, (out.getD i none).isSome = true) :=
  rolling_rms_spec [0] [(1 : ℝ)] 5 rfl

/-! ## Anomaly detector (`wfc3_psf/anomaly_detector.py`)

Metric values are embedded as rationals (every Python float is a rational);
the robust sigma lives in `ℝ` because the standard-deviation fallback takes
a square root. -/

/-- `np.median`: middle element of the sorted data for odd length, average
of the two middle elements for even length.  (NumPy returns NaN on an empty
array; every call site below guards non-emptiness, and the `getD` default
makes the empty case `0`.) -/
def npMedian (l : List ℚ) : ℚ :=
  let s := List.insertionSort (· ≤ ·) l
  let n := l.length
  if n % 2 = 1 then s.getD (n / 2) 0
  else (s.getD (n / 2 - 1) 0 + s.getD (n / 2) 0) / 2

/-- The median absolute deviation `np.median(np.abs(l - np.median(l)))`. -/
def npMad (l : List ℚ) : ℚ :=
  npMedian (l.map (fun x => |x - npMedian l|))

/-- The population variance `np.mean((l - np.mean(l)) ** 2)` (the square of
`np.std`). -/
def npVariance (l : List ℚ) : ℚ :=
  ((l.map (fun x => (x - l.sum / l.length) ^ 2)).sum) / l.length

/-- `np.std`: square root of the population variance. -/
noncomputable def npStd (l : List ℚ) : ℝ :=
  Real.sqrt ((npVariance l : ℚ) : ℝ)

/-- The robust scale estimate used by both detector modes:
`sigma = 1.4826 * mad if mad > 0 else np.std(values)`. -/
noncomputable def robustSigma (l : List ℚ) : ℝ :=
  if 0 < npMad l then (((1.4826 : ℚ) * npMad l : ℚ) : ℝ) else npStd l

/-- The sigma estimate as the specification words it: `1.4826 × MAD`,
falling back to the ordinary standard deviation when the MAD is zero.
Stated from the spec, to be compared with the code's `robustSigma`. -/
noncomputable def sigmaSpec (l : List ℚ) : ℝ :=
  if npMad l = 0 then npStd l else (((1.4826 : ℚ) * npMad l : ℚ) : ℝ)

/-- The boundary-clamped, center-inclusive window slice
`y[max(0, i-w) : min(n, i+w+1)]` used in local mode. -/
def localSeg (y : List ℚ) (w i : ℕ) : List ℚ :=
  (y.drop (i - w)).take (min y.length (i + w + 1) - (i - w))

/-- One iteration of the local-mode loop: flag index `i` against the
median `med` and robust sigma of its clamped window `seg`, skipping
(leaving `false`) whenever the local sigma is zero. -/
noncomputable def localFlag (y : List ℚ) (T : ℚ) (w i : ℕ) : Bool :=
  if robustSigma (localSeg y w i) = 0 then false
  else
    decide ((((|y.getD i 0 - npMedian (localSeg y w i)| : ℚ)) : ℝ) >
      (T : ℝ) * robustSigma (localSeg y w i))

/-- `AnomalyDetector.detect_anomalies`.  Empty input returns the empty
mask.  Global mode (`window <= 0`) compares every value to the global
median with the robust sigma, returning the all-false mask when that sigma
is zero.  Local mode (`window > 0`) flags each index against its clamped
window via `localFlag`. -/
noncomputable def detect_anomalies (y : List ℚ) (T : ℚ) (window : ℤ) : List Bool :=
  if y.length = 0 then []
  else if window ≤ 0 then
    if robustSigma y = 0 then List.replicate y.length false
    else y.map (fun v => decide ((((|v - npMedian y| : ℚ)) : ℝ) > (T : ℝ) * robustSigma y))
  else (List.range y.length).map (localFlag y T window.toNat)

/-- `AnomalyDetector.anomaly_indices`: `np.nonzero(mask)[0]` as a list of
positions, in ascending order. -/
noncomputable def anomaly_indices (y : List ℚ) (T : ℚ) (window : ℤ) : List ℕ :=
  let mask := detect_anomalies y T window
  (List.range mask.length).filter (fun i => mask.getD i false)

/-- The mask always has the length of the input series. -/
theorem detect_anomalies_length (y : List ℚ) (T : ℚ) (w : ℤ) :
    (detect_anomalies y T w).length = y.length := by
  unfold detect_anomalies
  by_cases hy : y.length = 0
  · simp [hy]
  · rw [if_neg hy]
    by_cases hw : w ≤ 0
    · rw [if_pos hw]
      by_cases hs : robustSigma y = 0
      · simp [hs]
      · simp [hs]
    · rw [if_neg hw]
      simp

/-- A list of non-negative rationals has non-negative `getD` values. -/
theorem getD_nonneg {l : List ℚ} (h : ∀ x ∈ l, 0 ≤ x) (n : ℕ) :
    0 ≤ l.getD n 0 := by
  induction l generalizing n with
  | nil => simp
  | cons a l ih =>
    cases n with
    | zero => exact h a (List.mem_cons_self a l)
    | succ n =>
      simp only [List.getD_cons_succ]
      exact ih (fun x hx => h x (List.mem_cons_of_mem a hx)) n

/-- The median of a list of non-negative rationals is non-negative. -/
theorem npMedian_nonneg {l : List ℚ} (h : ∀ x ∈ l, 0 ≤ x) :
    0 ≤ npMedian l := by
  have hs : ∀ x ∈ List.insertionSort (· ≤ ·) l, 0 ≤ x := by
    intro x hx
    exact h x ((List.perm_insertionSort (· ≤ ·) l).mem_iff.mp hx)
  unfold npMedian
  by_cases hodd : l.length % 2 = 1
  · rw [if_pos hodd]
    exact getD_nonneg hs _
  · rw [if_neg hodd]
    have h1 := getD_nonneg hs (l.length / 2 - 1)
    have h2 := getD_nonneg hs (l.length / 2)
    positivity

/-- The MAD is non-negative: it is a median of absolute values. -/
theorem npMad_nonneg (l : List ℚ) : 0 ≤ npMad l := by
  apply npMedian_nonneg
  intro x hx
  obtain ⟨a, _, rfl⟩ := List.mem_map.mp hx
  exact abs_nonneg _

/-- The code's `mad > 0` guard agrees with the spec's "fallback when MAD
is zero" because the MAD is never negative. -/
theorem robustSigma_eq_sigmaSpec (l : List ℚ) : robustSigma l = sigmaSpec l := by
  unfold robustSigma sigmaSpec
  rcases lt_or_eq_of_le (npMad_nonneg l) with h | h
  · have h1 : npMad l ≠ 0 := ne_of_gt h
    rw [if_pos h, if_neg h1]
  · have h2 : ¬0 < npMad l := by
      rw [← h]
      exact lt_irrefl 0
    rw [if_neg h2, if_pos h.symm]

/-- `getD` of a mapped list below its length evaluates the function at the
corresponding `getD` of the original list. -/
theorem getD_map_of_lt {α β : Type} (f : α → β) (l : List α) (i : ℕ)
    (h : i < l.length) (d : β) (d' : α) :
    (l.map f).getD i d = f (l.getD i d') := by
  induction l generalizing i with
  | nil => simp at h
  | cons a l ih =>
    cases i with
    | zero => rfl
    | succ i =>
      simp only [List.map_cons, List.getD_cons_succ]
      exact ih i (by simpa using h)

/-- Claim C3: in global mode on a non-empty series, the mask has the input
length and flags exactly the indices `i` with
`|y[i] - median| > threshold * sigma`, where `sigma` is `1.4826 × MAD`
with fallback to the standard deviation when the MAD is zero
(`sigmaSpec`); in particular a zero sigma yields the all-false mask. -/
theorem detect_anomalies_global_spec (y : List ℚ) (T : ℚ) (w : ℤ)
    (hw : w ≤ 0) (hy : y ≠ []) :
    (detect_anomalies y T w).length = y.length ∧
    ∀ i, i < y.length →
      ((detect_anomalies y T w).getD i false = true ↔
        sigmaSpec y ≠ 0 ∧
          (((|y.getD i 0 - npMedian y| : ℚ)) : ℝ) > (T : ℝ) * sigmaSpec y) := by
  refine ⟨detect_anomalies_length y T w, ?_⟩
  intro i hi
  have hy0 : ¬y.length = 0 := by
    intro h
    exact hy (List.length_eq_zero.mp h)
  unfold detect_anomalies
  rw [if_neg hy0, if_pos hw, ← robustSigma_eq_sigmaSpec]
  by_cases hs : robustSigma y = 0
  · rw [if_pos hs]
    simp only [hs, ne_eq, not_true_eq_false, false_and, iff_false]
    intro hmem
    have : (false : Bool) = true := by
      have hrep : (List.replicate y.length (false : Bool)).getD i false = false := by
        rcases Nat.lt_or_ge i y.length with h | h
        · rw [List.getD_eq_getD_get?, List.get?_eq_getElem?,
            List.getElem?_replicate, if_pos h]
          rfl
        · omega
      rw [hrep] at hmem
      exact hmem
    exact absurd this (by simp)
  · rw [if_neg hs]
    rw [getD_map_of_lt _ y i hi false 0]
    simp only [decide_eq_true_eq, hs, ne_eq, not_false_eq_true, true_and]

/-- Witness for C3 at the concrete series `[1, 2, 3]`, threshold 5,
window 0. -/
theorem detect_anomalies_global_spec_witness :
    (detect_anomalies [1, 2, 3] 5 0).length = ([1, 2, 3] : List ℚ).length ∧
    ∀ i, i < ([1, 2, 3] : List ℚ).length →
      ((detect_anomalies [1, 2, 3] 5 0).getD i false = true ↔
        sigmaSpec [1, 2, 3] ≠ 0 ∧
          (((|([1, 2, 3] : List ℚ).getD i 0 - npMedian [1, 2, 3]| : ℚ)) : ℝ) >
            ((5 : ℚ) : ℝ) * sigmaSpec [1, 2, 3]) :=
  detect_anomalies_global_spec [1, 2, 3] 5 0 (by decide) (by decide)

/-- Claim C4: in local mode, an index whose clamped-window robust sigma is
zero is never flagged. -/
theorem detect_anomalies_local_zero_sigma (y : List ℚ) (T : ℚ) (w : ℤ)
    (hw : 0 < w) (i : ℕ) (hi : i < y.length)
    (hsig : robustSigma (localSeg y w.toNat i) = 0) :
    (detect_anomalies y T w).getD i true = false := by
  have hy0 : ¬y.length = 0 := by omega
  have hw0 : ¬w ≤ 0 := by omega
  unfold detect_anomalies
  rw [if_neg hy0, if_neg hw0]
  rw [List.getD_eq_getD_get?, List.get?_map, List.get?_range hi]
  simp only [Option.map_some', Option.getD_some]
  unfold localFlag
  rw [if_pos hsig]

/-- Witness for C4: in `[1, 1, 5]` with window radius 1, the window of
index 0 is `[1, 1]`, whose MAD and standard deviation are both zero, and
index 0 is indeed unflagged. -/
theorem detect_anomalies_local_zero_sigma_witness :
    (detect_anomalies [1, 1, 5] 5 1).getD 0 true = false :=
  detect_anomalies_local_zero_sigma [1, 1, 5] 5 1 (by decide) 0 (by decide)
    (by
      have hseg : localSeg [1, 1, 5] (1 : ℤ).toNat 0 = [1, 1] := rfl
      rw [hseg]
      have hmad : npMad [1, 1] = 0 := by
        norm_num [npMad, npMedian, List.insertionSort, List.orderedInsert]
      have hvar : npVariance [1, 1] = 0 := by norm_num [npVariance]
      have hpos : ¬0 < npMad ([1, 1] : List ℚ) := by
        rw [hmad]
        exact lt_irrefl 0
      rw [robustSigma, if_neg hpos, npStd, hvar]
      simp)

/-- Claim C5: `anomaly_indices` returns a strictly ascending list
containing exactly the valid positions at which `detect_anomalies` (same
parameters) sets the mask. -/
theorem anomaly_indices_spec (y : List ℚ) (T : ℚ) (w : ℤ) :
    (anomaly_indices y T w).Pairwise (· < ·) ∧
    ∀ i, i ∈ anomaly_indices y T w ↔
      i < y.length ∧ (detect_anomalies y T w).getD i false = true := by
  constructor
  · exact (List.pairwise_lt_range _).filter _
  · intro i
    unfold anomaly_indices
    simp only [List.mem_filter, List.mem_range, detect_anomalies_length]

/-! ## PSF models (`wfc3_psf/models.py`) -/

/-- The `astropy.modeling.models.Gaussian2D` parameters set by
`create_psf_model`. -/
structure Gaussian2D where
  amplitude : ℝ
  x_mean : ℝ
  y_mean : ℝ
  x_stddev : ℝ
  y_stddev : ℝ

/-- `create_psf_model(detector, filter, fwhm)`: when `fwhm` is omitted, the
default is 2.0 px for the detector string `UVIS` and 1.5 px for anything
else (the code's `else` branch treats every non-UVIS value as IR); the
returned symmetric Gaussian has standard deviations `fwhm / 2.355` and
amplitude 1 at the origin.  The `filt` argument (Python `filter`) is
accepted but unused. -/
noncomputable def create_psf_model (detector : String) (filt : Option String)
    (fwhm : Option ℝ) : Gaussian2D :=
  let f := fwhm.getD (if detector = "UVIS" then 2.0 else 1.5)
  ⟨1, 0, 0, f / 2.355, f / 2.355⟩

/-- Claim C10: every detector string other than `UVIS` silently receives
the IR default FWHM of 1.5 px when `fwhm` is unspecified, and the returned
Gaussian always has both standard deviations equal to `fwhm / 2.355`. -/
theorem create_psf_model_non_uvis_defaults (d : String) (filt : Option String)
    (hd : d ≠ "UVIS") :
    (create_psf_model d filt none).x_stddev = 1.5 / 2.355 ∧
    (create_psf_model d filt none).y_stddev = 1.5 / 2.355 ∧
    ∀ (e : String) (filt2 : Option String) (f : ℝ),
      (create_psf_model e filt2 (some f)).x_stddev = f / 2.355 ∧
      (create_psf_model e filt2 (some f)).y_stddev = f / 2.355 := by
  refine ⟨?_, ?_, ?_⟩
  · simp [create_psf_model, hd]
  · simp [create_psf_model, hd]
  · intro e filt2 f
    exact ⟨rfl, rfl⟩

/-- Witness for C10 at the concrete unknown detector string `G280`. -/
theorem create_psf_model_non_uvis_defaults_witness :
    (create_psf_model "G280" none none).x_stddev = 1.5 / 2.355 ∧
    (create_psf_model "G280" none none).y_stddev = 1.5 / 2.355 ∧
    ∀ (e : String) (filt2 : Option String) (f : ℝ),
      (create_psf_model e filt2 (some f)).x_stddev = f / 2.355 ∧
      (create_psf_model e filt2 (some f)).y_stddev = f / 2.355 :=
  create_psf_model_non_uvis_defaults "G280" none (by decide)

/-- The side length of the grid built by
`np.mgrid[-size//2 : size//2+1, -size//2 : size//2+1]`: the slice runs
from `(-size)//2` (floor division) up to but excluding `size//2 + 1`, so
it contains `size//2 + 1 - (-size)//2` integers.  Python floor division is
`Int.fdiv`. -/
def psfGridSide (size : ℤ) : ℕ :=
  (Int.fdiv size 2 + 1 - Int.fdiv (-size) 2).toNat

/-- A sample PSF raster: square side length and the entry at row `i`,
column `j`. -/
structure SamplePsf where
  side : ℕ
  entry : ℕ → ℕ → ℝ

/-- `generate_sample_psf(size, fwhm)`: builds the centered pixel grid
`y, x = np.mgrid[-size//2 : size//2+1, -size//2 : size//2+1]` (so
`x[i][j] = (-size)//2 + j` and `y[i][j] = (-size)//2 + i`), evaluates the
Gaussian `exp(-(x^2 + y^2) / (2*sigma^2))` with `sigma = fwhm / 2.355`,
and divides by the total so the entries sum to one. -/
noncomputable def generate_sample_psf (size : ℤ) (fwhm : ℝ) : SamplePsf :=
  let lower := Int.fdiv (-size) 2
  let side := psfGridSide size
  let sigma := fwhm / 2.355
  let u : ℕ → ℕ → ℝ := fun i j =>
    Real.exp (-((((lower + j : ℤ) : ℝ)) ^ 2 + (((lower + i : ℤ) : ℝ)) ^ 2) /
      (2 * sigma ^ 2))
  let s := ∑ i ∈ Finset.range side, ∑ j ∈ Finset.range side, u i j
  ⟨side, fun i j => u i j / s⟩

/-- Claim C9 (code bug): at the default `size = 51` the generated raster is
`52 × 52`, not `51 × 51` — the `mgrid` slice from `(-51)//2 = -26` up to
`51//2 + 1 = 26` holds 52 integers, contradicting the docstring's
"size x size" contract (the discrepancy is `size + 1` for every positive
size). -/
theorem generate_sample_psf_size_bug :
    (generate_sample_psf 51 2.5).side = 52 ∧ psfGridSide 51 ≠ 51 := by
  constructor
  · rfl
  · decide

end WFC3
